import Mathlib

/-!
Shallow embedding of the Rinder matching/conversation core
(src/services/dataService.ts, with the shared record types from
src/types.ts).  The Supabase store is modelled as an in-memory
database `DB`; each service method becomes a pure function on `DB`.
Fallible store calls are modelled by an explicit optional error
injected at the call site (`swipeE`, `sendMessageE`); the error-free
instances are `swipe` and `sendMessage`.  The Math.random shuffle at
the end of `getPotentials` is modelled by an arbitrary reordering
function passed as a parameter, constrained to be a permutation in
the theorems that need it.
-/

namespace Rinder

/-- The user-type enum (src/types.ts: COMPANY, RESEARCHER, ADMIN). -/
inductive UserType where
  | COMPANY
  | RESEARCHER
  | ADMIN
deriving DecidableEq, Repr

/-- Social links record (src/types.ts SocialLinks). -/
structure SocialLinks where
  website : Option String := none
  linkedin : Option String := none
  twitter : Option String := none
  universityProfile : Option String := none
deriving DecidableEq, Repr

/-- A user profile row (src/types.ts User). -/
structure User where
  id : String
  username : String
  password : Option String := none
  type : UserType
  name : String := ""
  tagline : String := ""
  description : String := ""
  focusAreas : List String := []
  skills : List String := []
  projects : List String := []
  imageUrl : String := ""
  links : SocialLinks := {}
  isBlocked : Bool := false
deriving DecidableEq, Repr

/-- The two swipe gestures (src/types.ts: action is the string union of like and pass). -/
inductive SwipeKind where
  | like
  | pass
deriving DecidableEq, Repr

/-- A swipe-ledger row (src/types.ts SwipeAction; the insert in
DataService.swipe stores actorId, targetId and action). -/
structure SwipeAction where
  actorId : String
  targetId : String
  action : SwipeKind
deriving DecidableEq, Repr

/-- A match row (src/types.ts Match). -/
structure Match where
  id : String
  users : String × String
  timestamp : Nat
deriving DecidableEq, Repr

/-- A message row (src/types.ts Message). -/
structure Message where
  id : String
  senderId : String
  receiverId : String
  content : String
  timestamp : Nat
deriving DecidableEq, Repr

/-- The backing store: the four Supabase tables used by the data
service, plus a counter modelling DB-generated row ids. -/
structure DB where
  users : List User := []
  swipes : List SwipeAction := []
  matchRows : List Match := []
  messages : List Message := []
  nextId : Nat := 0
deriving DecidableEq, Repr

/-- Data field of a Supabase .single() read: the row when exactly one
row matches the query, otherwise null (zero or several rows both make
.single() report an error and leave data null; the service code reads
only the data field at these call sites). -/
def singleQ {α : Type} : List α → Option α
  | [x] => some x
  | _ => none

/-- Eligible target types for a requester (dataService.ts lines
112-122): a COMPANY sees RESEARCHERs only; otherwise the supplied
preference, defaulting to both COMPANY and RESEARCHER. -/
def targetTypesFor (cu : User) (targetTypePreference : Option UserType) : List UserType :=
  if cu.type = UserType.COMPANY then [UserType.RESEARCHER]
  else
    match targetTypePreference with
    | some p => [p]
    | none => [UserType.COMPANY, UserType.RESEARCHER]

/-- Candidate computation of DataService.getPotentials before the
final shuffle (dataService.ts lines 101-154): collect the ids the
requester has already swiped plus the requester itself, keep users
that are not blocked, not ADMIN and of an eligible type, drop the
already-swiped ids, and optionally restrict to a focus area. -/
def getPotentialsBase (db : DB) (cu : User) (filterFocusArea : Option String)
    (targetTypePreference : Option UserType) : List User :=
  let swipedIds : List String :=
    (db.swipes.filter (fun s => s.actorId == cu.id)).map SwipeAction.targetId ++ [cu.id]
  let targetTypes := targetTypesFor cu targetTypePreference
  let candidates := db.users.filter (fun u =>
    u.isBlocked != true && u.type != UserType.ADMIN && targetTypes.contains u.type)
  let results := candidates.filter (fun u => !(swipedIds.contains u.id))
  match filterFocusArea with
  | some f => results.filter (fun u => u.focusAreas.contains f)
  | none => results

/-- DataService.getPotentials: empty when nobody is logged in,
otherwise the candidate list in an order chosen by the Math.random
comparator, modelled by the reordering function shuffle. -/
def getPotentials (shuffle : List User → List User) (db : DB) (cu : Option User)
    (filterFocusArea : Option String) (targetTypePreference : Option UserType) : List User :=
  match cu with
  | none => []
  | some u => shuffle (getPotentialsBase db u filterFocusArea targetTypePreference)

/-- DataService.swipe with explicit store-error injection: insertErr
is the error reported by the swipes insert, matchInsertErr the one
reported by the matches insert.  Mirrors dataService.ts lines
159-200: record the swipe (throwing on error), stop on a pass, read
the reciprocal like with .single(), and if present insert a Match row
unconditionally (throwing on error). -/
def swipeE (db : DB) (cu : Option User) (targetId : String) (action : SwipeKind) (now : Nat)
    (insertErr : Option String) (matchInsertErr : Option String) :
    Except String (Option Match × DB) :=
  match cu with
  | none => Except.ok (none, db)
  | some u =>
    match insertErr with
    | some e => Except.error e
    | none =>
      let db1 : DB := { db with swipes := db.swipes ++ [⟨u.id, targetId, action⟩] }
      if action = SwipeKind.pass then Except.ok (none, db1)
      else
        match singleQ (db1.swipes.filter (fun s =>
          s.actorId == targetId && s.targetId == u.id && s.action == SwipeKind.like)) with
        | some _ =>
          match matchInsertErr with
          | some e => Except.error e
          | none =>
            let m : Match := ⟨toString db1.nextId, (u.id, targetId), now⟩
            Except.ok (some m, { db1 with matchRows := db1.matchRows ++ [m], nextId := db1.nextId + 1 })
        | none => Except.ok (none, db1)

/-- DataService.swipe when the store reports no error. -/
def swipe (db : DB) (cu : Option User) (targetId : String) (action : SwipeKind) (now : Nat) :
    Option Match × DB :=
  match swipeE db cu targetId action now none none with
  | Except.ok r => r
  | Except.error _ => (none, db)

/-- DataService.getMatches (dataService.ts lines 204-236): matches
containing the current user, each joined with the first id of the
pair that differs from the current user, looked up with .single();
rows whose counterpart lookup returns nothing are dropped. -/
def getMatches (db : DB) (cu : Option User) : List (Match × User) :=
  match cu with
  | none => []
  | some me =>
    (db.matchRows.filter (fun m => m.users.1 == me.id || m.users.2 == me.id)).filterMap
      (fun m =>
        let otherId : Option String :=
          if m.users.1 != me.id then some m.users.1
          else if m.users.2 != me.id then some m.users.2
          else none
        match otherId with
        | none => none
        | some oid =>
          match singleQ (db.users.filter (fun u => u.id == oid)) with
          | some other => some (m, other)
          | none => none)

/-- The message-pair predicate of the .or filter in
DataService.getConversation: sender and receiver are the current user
and the partner in either orientation. -/
def msgBetween (meId partnerId : String) (m : Message) : Bool :=
  (m.senderId == meId && m.receiverId == partnerId) ||
  (m.senderId == partnerId && m.receiverId == meId)

/-- DataService.getConversation (dataService.ts lines 238-250): the
messages of the pair, ordered by the store's ORDER BY timestamp
ascending.  Postgres returns some timestamp-sorted permutation of the
filtered rows and fixes no order among equal timestamps, so the sort
is modelled as an arbitrary function storeSort chosen by the store,
constrained in the theorems to return a timestamp-sorted permutation
of the queried rows. -/
def getConversation (storeSort : List Message → List Message) (db : DB) (cu : Option User)
    (partnerId : String) : List Message :=
  match cu with
  | none => []
  | some me => storeSort (db.messages.filter (msgBetween me.id partnerId))

/-- DataService.sendMessage with explicit store-error injection,
mirroring dataService.ts lines 252-265: no-op when logged out,
propagate an insert error, otherwise append the message row. -/
def sendMessageE (db : DB) (cu : Option User) (receiverId content : String) (now : Nat)
    (insertErr : Option String) : Except String DB :=
  match cu with
  | none => Except.ok db
  | some u =>
    match insertErr with
    | some e => Except.error e
    | none =>
      Except.ok { db with
        messages := db.messages ++ [⟨toString db.nextId, u.id, receiverId, content, now⟩],
        nextId := db.nextId + 1 }

/-- DataService.sendMessage when the store reports no error. -/
def sendMessage (db : DB) (cu : Option User) (receiverId content : String) (now : Nat) : DB :=
  match sendMessageE db cu receiverId content now none with
  | Except.ok d => d
  | Except.error _ => db

/-- DataService.getAllUsers: every stored user that is not an ADMIN. -/
def getAllUsers (db : DB) : List User :=
  db.users.filter (fun u => u.type != UserType.ADMIN)

/-- DataService.toggleBlock (dataService.ts lines 279-288): read the
user row with .single(); when it yields a row, set isBlocked of every
row with that id to the negation of the fetched flag, else change
nothing. -/
def toggleBlock (db : DB) (userId : String) : DB :=
  match singleQ (db.users.filter (fun u => u.id == userId)) with
  | none => db
  | some u0 =>
    { db with users := db.users.map (fun v =>
        if v.id == userId then { v with isBlocked := !u0.isBlocked } else v) }

/-- DataService.deleteUser (dataService.ts lines 290-297): remove the
user row and every swipe, match and message referencing the id. -/
def deleteUser (db : DB) (userId : String) : DB :=
  { db with
    users := db.users.filter (fun u => u.id != userId),
    swipes := db.swipes.filter (fun s => !(s.actorId == userId || s.targetId == userId)),
    matchRows := db.matchRows.filter (fun m => !(m.users.1 == userId || m.users.2 == userId)),
    messages := db.messages.filter (fun m => !(m.senderId == userId || m.receiverId == userId)) }

/-! Concrete fixtures used to evaluate the model. -/

/-- A minimal profile with the given id, username and type. -/
def mkUser (id username : String) (t : UserType) : User :=
  { id := id, username := username, type := t }

/-- Fixture researcher with id a. -/
def aliceU : User := mkUser "a" "alice" UserType.RESEARCHER

/-- Fixture company with id b. -/
def bobU : User := mkUser "b" "bob" UserType.COMPANY

/-- Fixture store holding the two fixture profiles and nothing else. -/
def dbAB : DB := { users := [aliceU, bobU] }

/-- Fixture message from a to b. -/
def msgAB : Message := ⟨"m1", "a", "b", "hi", 5⟩

/-- Fixture message from b to a, with the same timestamp as msgAB. -/
def msgBA : Message := ⟨"m2", "b", "a", "yo", 5⟩

/-- Fixture store with a conversation of two equal-timestamp messages. -/
def dbMsgs : DB := { users := [aliceU, bobU], messages := [msgAB, msgBA] }

/-- Fixture store after a mutual like between a and b and one message. -/
def dbC5 : DB :=
  sendMessage (swipe (swipe dbAB (some aliceU) "b" SwipeKind.like 1).2
    (some bobU) "a" SwipeKind.like 2).2 (some aliceU) "b" "hello" 3

/-- A store sort that reverses the queried rows: on a query whose
rows all carry the same timestamp (such as the fixture conversation)
this is a timestamp-sorted permutation, hence a result Postgres ORDER
BY is free to return. -/
def tieSwapSort (l : List Message) : List Message := l.reverse

/-! Shared helper lemmas. -/

/-- A .single() read that yields a row yields a row of the queried list. -/
lemma singleQ_mem {α : Type} {l : List α} {x : α} (h : singleQ l = some x) : x ∈ l := by
  match l with
  | [] => simp [singleQ] at h
  | [y] =>
    simp [singleQ] at h
    simp [h]
  | a :: b :: t => simp [singleQ] at h

/-- Membership in the pre-shuffle candidate list implies every
eligibility condition DataService.getPotentials filters on. -/
lemma getPotentialsBase_mem {db : DB} {cu : User} {ff : Option String}
    {pref : Option UserType} {x : User}
    (hx : x ∈ getPotentialsBase db cu ff pref) :
    x ∈ db.users ∧ x.isBlocked = false ∧ x.type ≠ UserType.ADMIN ∧
    x.type ∈ targetTypesFor cu pref ∧ x.id ≠ cu.id ∧
    ∀ s ∈ db.swipes, s.actorId = cu.id → s.targetId ≠ x.id := by
  have hx2 : x ∈ (db.users.filter (fun u =>
      u.isBlocked != true && u.type != UserType.ADMIN
        && (targetTypesFor cu pref).contains u.type)).filter (fun u =>
      !(((db.swipes.filter (fun s => s.actorId == cu.id)).map SwipeAction.targetId
          ++ [cu.id]).contains u.id)) := by
    unfold getPotentialsBase at hx
    cases ff with
    | none => exact hx
    | some f => exact (List.mem_filter.mp hx).1
  obtain ⟨hx3, hnsw⟩ := List.mem_filter.mp hx2
  obtain ⟨hmem, hcond⟩ := List.mem_filter.mp hx3
  simp only [Bool.and_eq_true, bne_iff_ne, ne_eq] at hcond
  obtain ⟨⟨hblock, hadmin⟩, htype⟩ := hcond
  simp only [List.elem_eq_mem, decide_eq_true_eq] at htype
  simp at hnsw
  obtain ⟨hnotswiped, hnotself⟩ := hnsw
  exact ⟨hmem, Bool.eq_false_iff.mpr hblock, hadmin, htype, hnotself, hnotswiped⟩

/-- Every pair returned by getMatches is built from a stored match row
and a stored user profile. -/
lemma getMatches_mem {db : DB} {me : User} {p : Match × User}
    (hp : p ∈ getMatches db (some me)) :
    p.1 ∈ db.matchRows ∧ p.2 ∈ db.users := by
  unfold getMatches at hp
  rw [List.mem_filterMap] at hp
  obtain ⟨m, hm, hf⟩ := hp
  have hm2 : m ∈ db.matchRows := (List.mem_filter.mp hm).1
  by_cases h1 : (m.users.1 != me.id) = true
  · simp only [h1, if_pos] at hf
    cases hq : singleQ (db.users.filter (fun u => u.id == m.users.1)) with
    | none => rw [hq] at hf; simp at hf
    | some other =>
      rw [hq] at hf
      simp at hf
      have ho : other ∈ db.users := (List.mem_filter.mp (singleQ_mem hq)).1
      rw [← hf]
      exact ⟨hm2, ho⟩
  · simp only [h1] at hf
    by_cases h2 : (m.users.2 != me.id) = true
    · simp only [h2, Bool.false_eq_true, if_false, if_true] at hf
      cases hq : singleQ (db.users.filter (fun u => u.id == m.users.2)) with
      | none => rw [hq] at hf; simp at hf
      | some other =>
        rw [hq] at hf
        simp at hf
        have ho : other ∈ db.users := (List.mem_filter.mp (singleQ_mem hq)).1
        rw [← hf]
        exact ⟨hm2, ho⟩
    · simp only [h2, Bool.false_eq_true, if_false] at hf
      simp at hf

/-- Every message returned by getConversation under a permuting store
sort is a stored message of the queried pair. -/
lemma getConversation_mem {storeSort : List Message → List Message}
    (hsort : ∀ l, (storeSort l).Perm l)
    {db : DB} {me : User} {partnerId : String} {m : Message}
    (hm : m ∈ getConversation storeSort db (some me) partnerId) :
    m ∈ db.messages ∧ msgBetween me.id partnerId m = true := by
  unfold getConversation at hm
  exact List.mem_filter.mp (((hsort _).mem_iff).mp hm)

/-- A row-update keyed on an id leaves a list without that id unchanged. -/
lemma map_idUpdate_of_filter_nil (userId : String) (h : User → User)
    (l : List User) (hl : l.filter (fun v => v.id == userId) = []) :
    l.map (fun v => if v.id == userId then h v else v) = l := by
  induction l with
  | nil => rfl
  | cons a t ih =>
    by_cases ha : (a.id == userId) = true
    · simp [List.filter_cons, ha] at hl
    · simp only [List.filter_cons, ha, Bool.false_eq_true, if_false] at hl
      simp only [List.map_cons, ha, Bool.false_eq_true, if_false]
      rw [ih hl]

/-- Setting the blocked flag on the unique row with the given id keeps
that row the unique one with the id, now carrying the new flag. -/
lemma filter_setBlocked_single (userId : String) (b : Bool) :
    ∀ (l : List User) (u0 : User), l.filter (fun v => v.id == userId) = [u0] →
      (l.map (fun v => if v.id == userId then { v with isBlocked := b } else v)).filter
          (fun v => v.id == userId) = [{ u0 with isBlocked := b }] := by
  intro l
  induction l with
  | nil => intro u0 h; simp at h
  | cons a t ih =>
    intro u0 h
    by_cases ha : (a.id == userId) = true
    · simp only [List.filter_cons, ha, if_pos] at h
      obtain ⟨rfl, ht⟩ : a = u0 ∧ t.filter (fun v => v.id == userId) = [] := by
        have := List.cons_eq_cons.mp h
        exact ⟨this.1, this.2⟩
      simp only [List.map_cons, ha, if_pos, List.filter_cons]
      rw [map_idUpdate_of_filter_nil userId _ t ht]
      simp only [List.filter_cons] at *
      have hcond : (({ a with isBlocked := b } : User).id == userId) = true := ha
      simp only [hcond, if_pos, ht]
    · simp only [List.filter_cons, ha, Bool.false_eq_true, if_false] at h
      simp only [List.map_cons, ha, Bool.false_eq_true, if_false, List.filter_cons, ha]
      exact ih u0 h

/-- Toggling the blocked flag of the unique row with the given id twice
restores the original list. -/
lemma map_setBlocked_involution (userId : String) (b1 : Bool) :
    ∀ (l : List User) (u0 : User), l.filter (fun v => v.id == userId) = [u0] →
      ((l.map (fun v => if v.id == userId then { v with isBlocked := b1 } else v)).map
        (fun v => if v.id == userId then { v with isBlocked := u0.isBlocked } else v)) = l := by
  intro l
  induction l with
  | nil => intro u0 h; simp at h
  | cons a t ih =>
    intro u0 h
    by_cases ha : (a.id == userId) = true
    · simp only [List.filter_cons, ha, if_pos] at h
      obtain ⟨rfl, ht⟩ : a = u0 ∧ t.filter (fun v => v.id == userId) = [] := by
        have := List.cons_eq_cons.mp h
        exact ⟨this.1, this.2⟩
      simp only [List.map_cons, ha, if_pos]
      rw [map_idUpdate_of_filter_nil userId _ t ht,
        map_idUpdate_of_filter_nil userId _ t ht]
    · simp only [List.filter_cons, ha, Bool.false_eq_true, if_false] at h
      simp only [List.map_cons, ha, Bool.false_eq_true, if_false]
      rw [ih u0 h]

/-! Claim theorems. -/

/-- Claim C1 (code bug): the claim says at most one Match record ever
exists per unordered pair and that a repeated identical like does not
create a second Match.  The code inserts a Match row on every like
that sees a reciprocal like, with no existence check: after a likes b,
b likes a (first Match), a repeated like from a to b creates a second
Match row for the same unordered pair, as this evaluation of the
embedded swipe shows. -/
theorem swipe_repeated_like_duplicates_match :
    (swipe (swipe (swipe dbAB (some aliceU) "b" SwipeKind.like 1).2
        (some bobU) "a" SwipeKind.like 2).2
        (some aliceU) "b" SwipeKind.like 3).2.matchRows.map Match.users
      = [("b", "a"), ("a", "b")] ∧
    (swipe (swipe (swipe dbAB (some aliceU) "b" SwipeKind.like 1).2
        (some bobU) "a" SwipeKind.like 2).2
        (some aliceU) "b" SwipeKind.like 3).2.matchRows.length = 2 :=
  ⟨rfl, rfl⟩

/-- Claim C2: for a logged-in user, a store error reported while
recording a swipe or while inserting a message propagates to the
caller as a hard error instead of a normal return: the embedded
operations return the error verbatim. -/
theorem swipe_sendMessage_propagate_store_error (db : DB) (u : User)
    (targetId : String) (action : SwipeKind) (now : Nat) (e : String)
    (matchInsertErr : Option String) (receiverId content : String) :
    swipeE db (some u) targetId action now (some e) matchInsertErr = Except.error e ∧
    sendMessageE db (some u) receiverId content now (some e) = Except.error e :=
  ⟨rfl, rfl⟩

/-- Claim C3 (code bug): the claim says sendMessage with blank or
whitespace-only content fails with EmptyContent and creates no
record.  The code performs no content validation: sending the
whitespace-only content creates a Message record and reports no
error, as this evaluation shows. -/
theorem sendMessage_blank_content_inserted :
    (sendMessage dbAB (some aliceU) "b" "   " 5).messages.map Message.content = ["   "] ∧
    (sendMessageE dbAB (some aliceU) "b" "   " 5 none).isOk = true :=
  ⟨rfl, rfl⟩

/-- Claim C4 (code bug): the claim says a swipe whose targetId equals
the current user id fails with DuplicateActor and appends no swipe
record.  The code has no self-swipe check: the swipe row is appended,
and for a like the .single() reciprocity read then sees the row just
inserted, so a self-match is even created. -/
theorem swipe_self_target_not_rejected :
    (swipe dbAB (some aliceU) "a" SwipeKind.like 1).2.swipes
      = [⟨"a", "a", SwipeKind.like⟩] ∧
    ((swipe dbAB (some aliceU) "a" SwipeKind.like 1).1).isSome = true :=
  ⟨rfl, rfl⟩

/-- Claim C5: deleteUser removes the profile and every swipe, match
and message referencing the id, so no record referencing the deleted
id is retrievable afterwards through getMatches, getConversation,
getAllUsers or getPotentials (for any requester, partner, filter, any
permutation played by the shuffle and any permuting store sort). -/
theorem deleteUser_cascades (db : DB) (uid : String)
    (shuffle : List User → List User) (hshuffle : ∀ l, (shuffle l).Perm l)
    (storeSort : List Message → List Message) (hsort : ∀ l, (storeSort l).Perm l)
    (v : User) (partnerId : String) (filterFocusArea : Option String)
    (targetTypePreference : Option UserType) :
    (∀ u ∈ (deleteUser db uid).users, u.id ≠ uid) ∧
    (∀ sw ∈ (deleteUser db uid).swipes, sw.actorId ≠ uid ∧ sw.targetId ≠ uid) ∧
    (∀ m ∈ (deleteUser db uid).matchRows, m.users.1 ≠ uid ∧ m.users.2 ≠ uid) ∧
    (∀ m ∈ (deleteUser db uid).messages, m.senderId ≠ uid ∧ m.receiverId ≠ uid) ∧
    (∀ p ∈ getMatches (deleteUser db uid) (some v),
      p.1.users.1 ≠ uid ∧ p.1.users.2 ≠ uid ∧ p.2.id ≠ uid) ∧
    (∀ m ∈ getConversation storeSort (deleteUser db uid) (some v) partnerId,
      m.senderId ≠ uid ∧ m.receiverId ≠ uid) ∧
    (∀ u ∈ getAllUsers (deleteUser db uid), u.id ≠ uid) ∧
    (∀ u ∈ getPotentials shuffle (deleteUser db uid) (some v) filterFocusArea
        targetTypePreference, u.id ≠ uid) := by
  have husers : ∀ u ∈ (deleteUser db uid).users, u.id ≠ uid := by
    intro u hu
    have := (List.mem_filter.mp hu).2
    simpa using this
  have hswipes : ∀ sw ∈ (deleteUser db uid).swipes, sw.actorId ≠ uid ∧ sw.targetId ≠ uid := by
    intro sw hs
    have := (List.mem_filter.mp hs).2
    simpa using this
  have hmatches : ∀ m ∈ (deleteUser db uid).matchRows, m.users.1 ≠ uid ∧ m.users.2 ≠ uid := by
    intro m hm
    have := (List.mem_filter.mp hm).2
    simpa using this
  have hmsgs : ∀ m ∈ (deleteUser db uid).messages, m.senderId ≠ uid ∧ m.receiverId ≠ uid := by
    intro m hm
    have := (List.mem_filter.mp hm).2
    simpa using this
  refine ⟨husers, hswipes, hmatches, hmsgs, ?_, ?_, ?_, ?_⟩
  · intro p hp
    obtain ⟨h1, h2⟩ := getMatches_mem hp
    exact ⟨(hmatches _ h1).1, (hmatches _ h1).2, husers _ h2⟩
  · intro m hm
    exact hmsgs _ (getConversation_mem hsort hm).1
  · intro u hu
    exact husers _ (List.mem_filter.mp hu).1
  · intro u hu
    have hu2 := ((hshuffle _).mem_iff).mp hu
    exact husers _ (getPotentialsBase_mem hu2).1

/-- Claim C5 witness: the cascade theorem applied to the fixture store
after a mutual match and a message, deleting user b. -/
theorem deleteUser_cascades_witness :
    (∀ u ∈ (deleteUser dbC5 "b").users, u.id ≠ "b") ∧
    (∀ sw ∈ (deleteUser dbC5 "b").swipes, sw.actorId ≠ "b" ∧ sw.targetId ≠ "b") ∧
    (∀ m ∈ (deleteUser dbC5 "b").matchRows, m.users.1 ≠ "b" ∧ m.users.2 ≠ "b") ∧
    (∀ m ∈ (deleteUser dbC5 "b").messages, m.senderId ≠ "b" ∧ m.receiverId ≠ "b") ∧
    (∀ p ∈ getMatches (deleteUser dbC5 "b") (some aliceU),
      p.1.users.1 ≠ "b" ∧ p.1.users.2 ≠ "b" ∧ p.2.id ≠ "b") ∧
    (∀ m ∈ getConversation id (deleteUser dbC5 "b") (some aliceU) "b",
      m.senderId ≠ "b" ∧ m.receiverId ≠ "b") ∧
    (∀ u ∈ getAllUsers (deleteUser dbC5 "b"), u.id ≠ "b") ∧
    (∀ u ∈ getPotentials id (deleteUser dbC5 "b") (some aliceU) none none, u.id ≠ "b") :=
  deleteUser_cascades dbC5 "b" id (fun l => List.Perm.refl l)
    id (fun l => List.Perm.refl l) aliceU "b" none none

/-- Claim C6: for any permutation played by the shuffle, getPotentials
for a logged-in requester never returns the requester, a blocked
profile, an ADMIN profile, or a profile the requester already swiped
on (like or pass). -/
theorem getPotentials_exclusions (shuffle : List User → List User)
    (hshuffle : ∀ l, (shuffle l).Perm l)
    (db : DB) (cu : User) (filterFocusArea : Option String)
    (targetTypePreference : Option UserType) (x : User)
    (hx : x ∈ getPotentials shuffle db (some cu) filterFocusArea targetTypePreference) :
    x.id ≠ cu.id ∧ x.isBlocked = false ∧ x.type ≠ UserType.ADMIN ∧
    ∀ sw ∈ db.swipes, sw.actorId = cu.id → sw.targetId ≠ x.id := by
  have hx2 : x ∈ getPotentialsBase db cu filterFocusArea targetTypePreference :=
    ((hshuffle _).mem_iff).mp hx
  obtain ⟨_, hb, had, _, hid, hsw⟩ := getPotentialsBase_mem hx2
  exact ⟨hid, hb, had, hsw⟩

/-- Claim C6 witness: the exclusion theorem applied to the returned
candidate b for requester a on the fixture store. -/
theorem getPotentials_exclusions_witness :
    bobU.id ≠ aliceU.id ∧ bobU.isBlocked = false ∧ bobU.type ≠ UserType.ADMIN ∧
    ∀ sw ∈ dbAB.swipes, sw.actorId = aliceU.id → sw.targetId ≠ bobU.id :=
  getPotentials_exclusions id (fun l => List.Perm.refl l) dbAB aliceU none none bobU
    (by decide)

/-- Claim C7: getPotentials applies the fixed type-compatibility rule:
a COMPANY requester only gets RESEARCHER profiles; a RESEARCHER
requester with a supplied preference only gets that type; a
RESEARCHER requester without a preference only gets COMPANY or
RESEARCHER profiles.  (The spec names these types ORGANIZATION and
INDIVIDUAL; the code enum names are COMPANY and RESEARCHER.) -/
theorem getPotentials_type_rule (shuffle : List User → List User)
    (hshuffle : ∀ l, (shuffle l).Perm l)
    (db : DB) (cu : User) (filterFocusArea : Option String)
    (targetTypePreference : Option UserType) (x : User)
    (hx : x ∈ getPotentials shuffle db (some cu) filterFocusArea targetTypePreference) :
    (cu.type = UserType.COMPANY → x.type = UserType.RESEARCHER) ∧
    (cu.type = UserType.RESEARCHER → ∀ p, targetTypePreference = some p → x.type = p) ∧
    (cu.type = UserType.RESEARCHER → targetTypePreference = none →
      x.type = UserType.COMPANY ∨ x.type = UserType.RESEARCHER) := by
  have hx2 : x ∈ getPotentialsBase db cu filterFocusArea targetTypePreference :=
    ((hshuffle _).mem_iff).mp hx
  have htype := (getPotentialsBase_mem hx2).2.2.2.1
  unfold targetTypesFor at htype
  refine ⟨?_, ?_, ?_⟩
  · intro hc
    simp [hc] at htype
    exact htype
  · intro hr p hp
    rw [hp] at htype
    simp [hr] at htype
    exact htype
  · intro hr hp
    rw [hp] at htype
    simp [hr] at htype
    exact htype

/-- Claim C7 witness: the type-rule theorem applied to requester a (a
RESEARCHER with preference COMPANY) and returned candidate b. -/
theorem getPotentials_type_rule_witness :
    (aliceU.type = UserType.COMPANY → bobU.type = UserType.RESEARCHER) ∧
    (aliceU.type = UserType.RESEARCHER →
      ∀ p, (some UserType.COMPANY : Option UserType) = some p → bobU.type = p) ∧
    (aliceU.type = UserType.RESEARCHER → (some UserType.COMPANY : Option UserType) = none →
      bobU.type = UserType.COMPANY ∨ bobU.type = UserType.RESEARCHER) :=
  getPotentials_type_rule id (fun l => List.Perm.refl l) dbAB aliceU none
    (some UserType.COMPANY) bobU (by decide)

/-- Claim C8 counterexample: the ties-resolved-by-insertion-order
clause of the claim fails on the code.  The code orders by a Postgres
ORDER BY on timestamp with no tiebreaker, so the store may return
equal-timestamp rows in either order: the reversing store sort is a
timestamp-sorted permutation of the two equal-timestamp fixture
messages (a legitimate ORDER BY result), yet getConversation then
returns the pair's messages in the opposite of insertion order. -/
theorem getConversation_tie_order_counterexample :
    dbMsgs.messages = [msgAB, msgBA] ∧
    msgAB.timestamp = msgBA.timestamp ∧
    (tieSwapSort (dbMsgs.messages.filter (msgBetween aliceU.id "b"))).Perm
      (dbMsgs.messages.filter (msgBetween aliceU.id "b")) ∧
    (tieSwapSort (dbMsgs.messages.filter (msgBetween aliceU.id "b"))).Pairwise
      (fun a b => a.timestamp ≤ b.timestamp) ∧
    getConversation tieSwapSort dbMsgs (some aliceU) "b" = [msgBA, msgAB] :=
  ⟨rfl, rfl, by decide, by decide, rfl⟩

/-- Claim C8 (amended): for any store sort obeying the Postgres ORDER
BY contract on the queried rows (it returns a timestamp-sorted
permutation of them), getConversation returns exactly the stored
messages whose sender and receiver form the unordered pair of the
current user and the partner, in non-decreasing timestamp order; the
relative order of equal-timestamp messages is whatever the store
returned, the code adding no tiebreaker. -/
theorem getConversation_pair_sorted (storeSort : List Message → List Message)
    (db : DB) (me : User) (partnerId : String)
    (hperm : (storeSort (db.messages.filter (msgBetween me.id partnerId))).Perm
      (db.messages.filter (msgBetween me.id partnerId)))
    (hsorted : (storeSort (db.messages.filter (msgBetween me.id partnerId))).Pairwise
      (fun a b => a.timestamp ≤ b.timestamp)) :
    (getConversation storeSort db (some me) partnerId).Perm
      (db.messages.filter (msgBetween me.id partnerId)) ∧
    (getConversation storeSort db (some me) partnerId).Pairwise
      (fun a b => a.timestamp ≤ b.timestamp) ∧
    (∀ m, m ∈ getConversation storeSort db (some me) partnerId ↔
      m ∈ db.messages ∧ msgBetween me.id partnerId m = true) :=
  ⟨hperm, hsorted, fun m => by
    unfold getConversation
    rw [hperm.mem_iff]
    exact List.mem_filter⟩

/-- Claim C8 witness: the conversation theorem applied to the fixture
store with two equal-timestamp messages between a and b, with the
identity store sort (a sorted permutation of those rows). -/
theorem getConversation_pair_sorted_witness :
    (getConversation id dbMsgs (some aliceU) "b").Perm
      (dbMsgs.messages.filter (msgBetween aliceU.id "b")) ∧
    (getConversation id dbMsgs (some aliceU) "b").Pairwise
      (fun a b => a.timestamp ≤ b.timestamp) ∧
    (∀ m, m ∈ getConversation id dbMsgs (some aliceU) "b" ↔
      m ∈ dbMsgs.messages ∧ msgBetween aliceU.id "b" m = true) :=
  getConversation_pair_sorted id dbMsgs aliceU "b" (List.Perm.refl _) (by decide)

/-- Claim C9: with no logged-in user, getPotentials, getMatches and
getConversation return the empty sequence, swipe returns null and
leaves the store unchanged, and sendMessage leaves the store
unchanged. -/
theorem logged_out_operations_noop (shuffle : List User → List User)
    (storeSort : List Message → List Message) (db : DB)
    (filterFocusArea : Option String) (targetTypePreference : Option UserType)
    (targetId partnerId receiverId content : String) (action : SwipeKind) (now : Nat) :
    getPotentials shuffle db none filterFocusArea targetTypePreference = [] ∧
    getMatches db none = [] ∧
    getConversation storeSort db none partnerId = [] ∧
    swipe db none targetId action now = (none, db) ∧
    sendMessage db none receiverId content now = db :=
  ⟨rfl, rfl, rfl, rfl, rfl⟩

/-- Claim C10: when exactly one profile carries the id, toggleBlock
negates that profile's blocked flag, changing no other field, no
other profile and no other table, and applying it twice restores the
store; when no profile carries the id, toggleBlock changes nothing. -/
theorem toggleBlock_spec (db : DB) (userId : String) :
    (∀ u0, db.users.filter (fun v => v.id == userId) = [u0] →
      (toggleBlock db userId).users
        = db.users.map (fun v => if v.id == userId
            then { v with isBlocked := !v.isBlocked } else v) ∧
      (toggleBlock db userId).swipes = db.swipes ∧
      (toggleBlock db userId).matchRows = db.matchRows ∧
      (toggleBlock db userId).messages = db.messages ∧
      (toggleBlock db userId).nextId = db.nextId ∧
      toggleBlock (toggleBlock db userId) userId = db) ∧
    (db.users.filter (fun v => v.id == userId) = [] → toggleBlock db userId = db) := by
  constructor
  · intro u0 h
    have key : ∀ v ∈ db.users, (v.id == userId) = true → v = u0 := by
      intro v hv hp
      have hvf : v ∈ db.users.filter (fun v => v.id == userId) :=
        List.mem_filter.mpr ⟨hv, hp⟩
      rw [h] at hvf
      simpa using hvf
    have htb : toggleBlock db userId
        = { db with users := db.users.map (fun v =>
            if v.id == userId then { v with isBlocked := !u0.isBlocked } else v) } := by
      unfold toggleBlock
      rw [h]
      rfl
    refine ⟨?_, by rw [htb], by rw [htb], by rw [htb], by rw [htb], ?_⟩
    · rw [htb]
      exact List.map_congr_left (by
        intro v hv
        by_cases hp : (v.id == userId) = true
        · rw [key v hv hp]
        · simp [hp])
    · rw [htb]
      unfold toggleBlock
      rw [filter_setBlocked_single userId (!u0.isBlocked) db.users u0 h]
      simp only [singleQ]
      simp only [Bool.not_not]
      rw [map_setBlocked_involution userId (!u0.isBlocked) db.users u0 h]
  · intro h
    unfold toggleBlock
    rw [h]
    rfl

/-- Claim C10 witness: the toggleBlock theorem applied to the fixture
store at the unique profile with id b, and at the absent id z. -/
theorem toggleBlock_spec_witness :
    ((toggleBlock dbAB "b").users
      = dbAB.users.map (fun v => if v.id == "b"
          then { v with isBlocked := !v.isBlocked } else v) ∧
     toggleBlock (toggleBlock dbAB "b") "b" = dbAB) ∧
    toggleBlock dbAB "z" = dbAB :=
  ⟨⟨((toggleBlock_spec dbAB "b").1 bobU (by decide)).1,
    ((toggleBlock_spec dbAB "b").1 bobU (by decide)).2.2.2.2.2⟩,
   (toggleBlock_spec dbAB "z").2 (by decide)⟩

end Rinder
